import Mathlib

/-!
Verification of the generation-retry-evaluation core of the multimodal
code-generation assistant.  Python source files are shallowly embedded:
strings are `String` or `List Char`, Python dictionaries become structures,
mutable module state is threaded explicitly, and code that can raise returns
an `Except`-shaped result together with the mutated state (Python exceptions
do not roll back earlier mutations, and neither does the embedding).
-/

/-! ## Code metrics (`model_evaluator.py`, `_calculate_code_metrics`) -/

/-- Python whitespace test used by `str.strip()`, restricted to the ASCII
whitespace characters (space, tab, newline, carriage return, vertical tab,
form feed). -/
def isSpaceChar (c : Char) : Bool :=
  c == ' ' || c == '\t' || c == '\n' || c == '\r' ||
    c == Char.ofNat 11 || c == Char.ofNat 12

/-- Python `code.split("\n")`: splitting on every newline; the empty
string yields one (empty) line. -/
def splitNl : List Char → List (List Char)
  | [] => [[]]
  | c :: cs =>
    if c = '\n' then [] :: splitNl cs
    else
      match splitNl cs with
      | [] => [[c]]
      | l :: ls => (c :: l) :: ls

/-- Joining with newlines, `"\n".join(lines)`: the inverse construction used to state the
round-trip property. -/
def joinNl : List (List Char) → List Char
  | [] => []
  | [l] => l
  | l :: l2 :: ls => l ++ '\n' :: joinNl (l2 :: ls)

/-- Truthiness of `line.strip()`: the line has some non-whitespace character. -/
def lineNonBlank (l : List Char) : Bool :=
  l.any fun c => ! isSpaceChar c

/-- Python `line.strip().startswith("#")`. -/
def startsWithHash (l : List Char) : Bool :=
  match l.dropWhile (fun c => isSpaceChar c) with
  | [] => false
  | c :: _ => c == '#'

/-- Python `s.startswith(pat)` on character lists. -/
def listStartsWith : List Char → List Char → Bool
  | [], _ => true
  | _ :: _, [] => false
  | p :: ps, c :: cs => p == c && listStartsWith ps cs

/-- Python substring test `pat in s`. -/
def containsSub (pat : List Char) : List Char → Bool
  | [] => listStartsWith pat []
  | c :: cs => listStartsWith pat (c :: cs) || containsSub pat cs

/-- The three-double-quote docstring marker. -/
def tripleDq : List Char := ['"', '"', '"']

/-- The three-single-quote docstring marker (character code 39). -/
def tripleSq : List Char := [Char.ofNat 39, Char.ofNat 39, Char.ofNat 39]

/-- The metrics dictionary built by `ModelEvaluator._calculate_code_metrics`.
`avg_line_length` is a Python float division; it is embedded as a rational. -/
structure CodeMetrics where
  total_lines : Nat
  non_empty_lines : Nat
  character_count : Nat
  has_docstrings : Bool
  has_comments : Bool
  avg_line_length : ℚ
deriving DecidableEq, Repr

/-- Function `ModelEvaluator._calculate_code_metrics` (model_evaluator.py, lines
110-128), translated clause by clause. -/
def _calculate_code_metrics (code : List Char) : CodeMetrics :=
  let lines := splitNl code
  let non_empty_lines := lines.filter lineNonBlank
  { total_lines := lines.length
    non_empty_lines := non_empty_lines.length
    character_count := code.length
    has_docstrings := containsSub tripleDq code || containsSub tripleSq code
    has_comments := lines.any startsWithHash
    avg_line_length :=
      (((non_empty_lines.map List.length).sum : Nat) : ℚ) /
        ((max non_empty_lines.length 1 : Nat) : ℚ) }

/-! ## Model Gateway (`main.py`: `get_llm`, `query_llm`) -/

/-- An `Ollama(model=..., request_timeout=...)` handle. -/
structure Ollama where
  model : String
  request_timeout : Nat
deriving DecidableEq, Repr

/-- The module-level globals `_chat_llm` and `_code_llm` of main.py. -/
structure LlmGlobals where
  _chat_llm : Option Ollama
  _code_llm : Option Ollama
deriving DecidableEq, Repr

/-- Function `get_llm` (main.py, lines 25-36).  The cache branches on whether the
requested name is "codellama", not on the name itself: every other name
shares the single `_chat_llm` slot.  Returns the handle and the updated
globals. -/
def get_llm (g : LlmGlobals) (model_name : String) : Ollama × LlmGlobals :=
  if model_name = "codellama" then
    match g._code_llm with
    | some llm => (llm, g)
    | none =>
      let llm : Ollama := ⟨model_name, 300⟩
      (llm, { g with _code_llm := some llm })
  else
    match g._chat_llm with
    | some llm => (llm, g)
    | none =>
      let llm : Ollama := ⟨model_name, 300⟩
      (llm, { g with _chat_llm := some llm })

/-- The fresh globals at module import (`_chat_llm = None`, `_code_llm = None`). -/
def llmGlobals0 : LlmGlobals := ⟨none, none⟩

/-- A sequence of `get_llm` calls, threading the global cache. -/
def runGetLlm (g : LlmGlobals) : List String → LlmGlobals
  | [] => g
  | n :: ns => runGetLlm (get_llm g n).2 ns

mutual
/-- A JSON value as returned by `json.loads`.  Objects and arrays carry their
members through the mutual types `JMembers`/`JElems` (isomorphic to lists). -/
inductive JVal where
  | obj : JMembers → JVal
  | arr : JElems → JVal
  | str : String → JVal
  | num : Int → JVal
  | bool : Bool → JVal
  | null : JVal
deriving DecidableEq
/-- The key/value members of a JSON object. -/
inductive JMembers where
  | nil : JMembers
  | cons : String → JVal → JMembers → JMembers
deriving DecidableEq
/-- The elements of a JSON array. -/
inductive JElems where
  | nil : JElems
  | cons : JVal → JElems → JElems
deriving DecidableEq
end

/-- A Python value returned by `query_llm`: either the raw response text or a
parsed/synthesised JSON value (dict, list, ...). -/
inductive PyValue where
  | str : String → PyValue
  | json : JVal → PyValue
deriving DecidableEq

/-- The `response_format` argument of `query_llm`. -/
inductive RespFormat where
  | none
  | json
  | json_array
deriving DecidableEq

/-- Function `query_llm` (main.py, lines 38-65).  `complete` abstracts
`get_llm(model).complete(prompt).text` — `.ok text` when the model call
succeeds, `.error message` when it raises; `loads` abstracts `json.loads`
with `.error message` for a raised `JSONDecodeError`.  The single
`try/except` covers both the model call and the decode, so on any failure
the function returns the typed error value of the requested format instead
of raising. -/
def query_llm (complete : Except String String)
    (loads : String → Except String JVal)
    (response_format : RespFormat) : PyValue :=
  match complete with
  | .ok result =>
    match response_format with
    | .json =>
      match loads result with
      | .ok v => .json v
      | .error e => .json (JVal.obj (.cons "error" (JVal.str e) .nil))
    | .json_array =>
      match loads result with
      | .ok v => .json v
      | .error e => .json (JVal.arr (.cons (JVal.str ("Error: " ++ e)) .nil))
    | .none => .str result
  | .error e =>
    match response_format with
    | .json => .json (JVal.obj (.cons "error" (JVal.str e) .nil))
    | .json_array => .json (JVal.arr (.cons (JVal.str ("Error: " ++ e)) .nil))
    | .none => .str ("Error: " ++ e)

/-! ## Feedback store (`feedback_manager.py`) -/

/-- One record of the feedback log (`feedback_manager.py`, lines 89-99).
The timestamp is an abstract instant. -/
structure FeedbackEntry where
  timestamp : Nat
  code_id : String
  rating : Nat
  comment : String
  chat_model : Option String
  code_model : Option String
  code : Option String
  prompt : Option String
  code_description : Option String
deriving DecidableEq, Repr

/-- Method `FeedbackManager.is_feedback_recorded` (lines 38-58): linear scan of the
stored entries for one with the given `code_id`.  The store models the JSON
array held in the log file. -/
def is_feedback_recorded (store : List FeedbackEntry) (code_id : String) : Bool :=
  store.any fun entry => entry.code_id == code_id

/-- Method `FeedbackManager.record_feedback` (lines 60-109): if the id is already
recorded, return `True` without touching the store; otherwise append the new
entry and return `True`.  (The file round-trip is modelled as succeeding;
on an IO failure the Python code returns `False` with the store intact.) -/
def record_feedback (store : List FeedbackEntry) (entry : FeedbackEntry) :
    List FeedbackEntry × Bool :=
  if is_feedback_recorded store entry.code_id then (store, true)
  else (store ++ [entry], true)

/-- A sequence of `record_feedback` calls threaded through the store. -/
def runFeedback (store : List FeedbackEntry) : List FeedbackEntry → List FeedbackEntry
  | [] => store
  | e :: es => runFeedback (record_feedback store e).1 es

/-! ## Feedback analyzer (`feedback_analyzer.py`, `categorize_feedback`) -/

/-- A Python exception, as relevant to the embedded control flow.  Message
payloads model `str(e)` loosely; the claims do not depend on exact message
text. -/
inductive PyErr where
  | keyError (key : String)
  | attributeError
  | typeError
  | valueError (msg : String)
  | agentError (msg : String)
  | ioError
deriving DecidableEq, Repr

/-- Python `str(e)` for an exception.  Only used to build user-facing text and the
retry context; the exact rendering is immaterial to the claims. -/
def pyErrStr : PyErr → String
  | .keyError k => "KeyError: " ++ k
  | .attributeError => "AttributeError" 
  | .typeError => "TypeError: object is not subscriptable"
  | .valueError m => m
  | .agentError m => m
  | .ioError => "IOError"

/-- The `self.current_evaluation` dictionary.  `start_time` is `none` both
when the key was never set (the `__init__` dict has no such key) and after
`pop("start_time")` removed it; reading it then raises `KeyError`. -/
structure CurrentEval where
  timestamp : Option Nat
  chat_model : Option String
  code_model : Option String
  prompt : Option String
  start_time : Option Nat
  completion_time : Option Nat
  tokens_generated : Option Nat
  retry_count : Nat
  success : Bool
  error : Option String
  code_metrics : Option CodeMetrics
deriving DecidableEq, Repr

/-- A `ModelEvaluator`: the in-memory current evaluation plus the JSON log
file contents (a list of saved snapshots of `current_evaluation`).
`_save_evaluation`'s file IO is modelled as succeeding. -/
structure Evaluator where
  cur : CurrentEval
  log : List CurrentEval
deriving DecidableEq, Repr

/-- The evaluator right after `ModelEvaluator.__init__` (lines 17-37) with an
empty log file. -/
def evaluator0 : Evaluator :=
  { cur := { timestamp := none, chat_model := none, code_model := none,
             prompt := none, start_time := none, completion_time := none,
             tokens_generated := none, retry_count := 0, success := false,
             error := none, code_metrics := none }
    log := [] }

/-- Method `ModelEvaluator.start_evaluation` (lines 49-71): reset the current
evaluation, recording the models, the prompt, and the start instant `t`. -/
def start_evaluation (chat_model code_model prompt : String) (t : Nat)
    (ev : Evaluator) : Evaluator :=
  { ev with cur := { timestamp := some t, chat_model := some chat_model,
                     code_model := some code_model, prompt := some prompt,
                     start_time := some t, completion_time := none,
                     tokens_generated := none, retry_count := 0,
                     success := false, error := none, code_metrics := none } }

/-- Method `ModelEvaluator.record_retry` (lines 73-77). -/
def record_retry (error : String) (ev : Evaluator) : Evaluator :=
  { ev with cur := { ev.cur with
                     retry_count := ev.cur.retry_count + 1
                     error := some error } }

/-- The value stored under a dict key such as `"code"`: a JSON string, or
any non-string JSON value (`null`, a number, a boolean, a list, ...) of
which only its Python truthiness is observed before it reaches
`record_success`.  On every non-string value `record_success` raises between
`pop("start_time")` and the log append: `len(value)` raises `TypeError` for
unsized values such as `null`, and for sized non-strings (lists, dicts)
`value.split("\n")` inside `_calculate_code_metrics` raises
`AttributeError` a line later, still before `_save_evaluation`; the
embedding folds both into the `TypeError` raise. -/
inductive PyVal where
  | str (s : String)
  | other (truthy : Bool)
deriving DecidableEq, Repr

/-- Python truthiness of such a value (`if cleaned_json['code']:`). -/
def pyTruthy : PyVal → Bool
  | .str s => !(s == "")
  | .other b => b

/-- The `code_output` argument of `record_success`: a dict (on which
`.get("code", "")` yields the stored value, the empty string when the key is
absent) or a plain string (on which `.get` raises `AttributeError`). -/
inductive EvalArg where
  | dict (code : PyVal)
  | str (s : String)
deriving DecidableEq, Repr

/-- Method `ModelEvaluator.record_success` (lines 79-97), statement by statement:
set `success = True`; `pop("start_time")` — raising `KeyError` if the key is
absent (a second finalization); only then read `code_output.get("code","")`
— raising `AttributeError` if the argument is not a dict; take `len` of the
value — raising `TypeError` (or, for sized non-strings, `AttributeError` one
line later in the metrics) when it is not a string; compute the token
estimate and code metrics; append the snapshot to the log.  Returns the
completion time or the raised exception, together with the mutated state
(Python does not roll back on raise). -/
def record_success (now : Nat) (code_output : EvalArg) (ev : Evaluator) :
    Except PyErr Nat × Evaluator :=
  let cur1 := { ev.cur with success := true }
  match cur1.start_time with
  | none => (.error (.keyError "start_time"), { ev with cur := cur1 })
  | some st =>
    let cur2 := { cur1 with
                  start_time := none
                  completion_time := some (now - st) }
    match code_output with
    | .str _ => (.error .attributeError, { ev with cur := cur2 })
    | .dict v =>
      match v with
      | .other _ => (.error .typeError, { ev with cur := cur2 })
      | .str code =>
        let cur3 := { cur2 with
                      tokens_generated := some (code.length / 4)
                      code_metrics := some (_calculate_code_metrics code.data) }
        (.ok (now - st), { cur := cur3, log := ev.log ++ [cur3] })

/-- Method `ModelEvaluator.record_failure` (lines 99-108): set `success = False`;
`pop("start_time")` — raising `KeyError` if absent; store the error; append
the snapshot to the log. -/
def record_failure (now : Nat) (error : String) (ev : Evaluator) :
    Except PyErr Nat × Evaluator :=
  let cur1 := { ev.cur with success := false }
  match cur1.start_time with
  | none => (.error (.keyError "start_time"), { ev with cur := cur1 })
  | some st =>
    let cur2 := { cur1 with
                  start_time := none
                  completion_time := some (now - st)
                  error := some error }
    (.ok (now - st), { cur := cur2, log := ev.log ++ [cur2] })

/-- One finalization call on the evaluator: `record_success` with a dict
argument (whose `"code"` value may be any JSON value), or `record_failure`. -/
inductive FinOp where
  | succ (now : Nat) (code : PyVal)
  | fail (now : Nat) (error : String)
deriving DecidableEq, Repr

/-- Apply a finalization call. -/
def applyFin (op : FinOp) (ev : Evaluator) : Except PyErr Nat × Evaluator :=
  match op with
  | .succ now code => record_success now (.dict code) ev
  | .fail now error => record_failure now error ev

/-- Thread a sequence of finalization calls, keeping only the state (each
raised exception is observed by the caller; the state mutations persist). -/
def runFins (ops : List FinOp) (ev : Evaluator) : Evaluator :=
  match ops with
  | [] => ev
  | op :: rest => runFins rest (applyFin op ev).2

/-! ## Generation-retry controller (`streamlitApp.py`, tab1, lines 109-226) -/

/-- The parsed shape of the cleaned pipeline output, i.e. the `json.loads`
result of line 138.  `none` models a raised `JSONDecodeError`
(`is_json = False`); a parse to a non-dict value behaves like a dict lacking
the accessed keys — both key access and subscripting a non-dict raise into
the same `except` handler.  The `"code"` value, when present, may be any
JSON value (`PyVal`), not only a string. -/
structure PJson where
  description : Option String
  code : Option PyVal
  filename : Option String
deriving DecidableEq, Repr

/-- The environment of one generation attempt: the outcome of
`agent.query(retry_prompt)` composed with `output_pipeline.run` and the
`"assistant:"` cleanup (`.error msg` when the agent call raises, `.ok text`
with the cleaned text otherwise), whether the artifact file write succeeds,
and the current time at the finalization calls of this attempt. -/
structure AttemptEnv where
  agent : Except String String
  write_ok : Bool
  now : Nat

/-- User-facing output of the run, in emission order (the `st.*` calls the
claims refer to; pure progress spinners are not tracked). -/
inductive UiEvent where
  | retryInfo (ctx : String)
  | showStructured (description : String)
  | showRawFallback (raw : String)
  | fileSaved (filename : String)
  | fileError (msg : String)
  | infoCompletion (t : Nat)
  | warnRetry (k : Nat)
  | failedAfterMax (msg : String)
deriving DecidableEq, Repr

/-- The state of the generation loop: the `retries`/`success`/`error_context`
locals of lines 112-115, the shared evaluator, the emitted UI events, the
session history (line 196), and a ghost counter of generation attempts (one
per execution of the `try` body). -/
structure RunState where
  retries : Nat
  success : Bool
  error_context : String
  evaluator : Evaluator
  events : List UiEvent
  history : List PJson
  attempts : Nat
deriving DecidableEq, Repr

/-- Result of one loop iteration: continue to the `while` guard, or an
exception escaped the loop (raised inside the `except` handler). -/
inductive StepOut where
  | next (st : RunState)
  | fatal (st : RunState) (e : PyErr)
deriving DecidableEq, Repr

/-- Result of a whole run: the loop exited at its guard, or an uncaught
exception crashed the script. -/
inductive RunOutcome where
  | finished (st : RunState)
  | crashed (st : RunState) (e : PyErr)
deriving DecidableEq, Repr

/-- Constant `max_retries = 3` (line 112). -/
def max_retries : Nat := 3

/-- Python string slicing `s[:n]`. -/
def strTake (n : Nat) (s : String) : String := String.mk (s.data.take n)

/-- Line 190 formats `e[:200]` into the error report — but slicing an
exception object always raises `TypeError`, so the report is never produced
and the `TypeError` propagates to the outer handler instead. -/
def pySliceExn (_ : PyErr) : Except PyErr String := .error .typeError

/-- The outer `except Exception as e` handler (lines 198-226): best-effort
expander display (lines 199-211, display only), `retries += 1`, rebuild
`error_context` from `str(e)` (the traceback tail of line 215 is abstracted
into the message), warn (line 216), and at the bound show the terminal error
and call `record_failure` (lines 218-226) — whose own `KeyError`, if raised,
escapes the loop. -/
def handleExcept (now : Nat) (e : PyErr) (st : RunState) : StepOut :=
  let retries2 := st.retries + 1
  let error_msg := pyErrStr e
  let st2 := { st with
               retries := retries2
               error_context := error_msg
               events := st.events ++ [.warnRetry retries2] }
  if max_retries ≤ retries2 then
    let st3 := { st2 with
                 events := st2.events ++ [UiEvent.failedAfterMax (strTake 300 error_msg)] }
    match record_failure now st3.error_context st3.evaluator with
    | (.ok _, ev2) => .next { st3 with evaluator := ev2 }
    | (.error e2, ev2) => .fatal { st3 with evaluator := ev2 } e2
  else
    .next st2

/-- Lines 170-196: the tail of the structured-display branch.
`record_success(cleaned_json)` (line 170), `success = True` and the opaque
code id (lines 172-178), then the guarded artifact write (lines 181-190)
followed by the completion banner and history append (lines 193-196). -/
def successTail (env : AttemptEnv) (pj : PJson) (st : RunState) : StepOut :=
  match record_success env.now (.dict (pj.code.getD (PyVal.str ""))) st.evaluator with
  | (.error e, ev2) => handleExcept env.now e { st with evaluator := ev2 }
  | (.ok completion_time, ev2) =>
    let st2 := { st with
                 evaluator := ev2
                 success := true }
    match pj.filename with
    | none =>
      match pySliceExn (.keyError "filename") with
      | .error t => handleExcept env.now t st2
      | .ok m =>
        .next { st2 with
                events := st2.events ++ [.fileError m, .infoCompletion completion_time]
                history := st2.history ++ [pj] }
    | some filename =>
      if env.write_ok then
        .next { st2 with
                events := st2.events ++
                  [.fileSaved filename, .infoCompletion completion_time]
                history := st2.history ++ [pj] }
      else
        match pySliceExn .ioError with
        | .error t => handleExcept env.now t st2
        | .ok m =>
          .next { st2 with
                  events := st2.events ++ [.fileError m, .infoCompletion completion_time]
                  history := st2.history ++ [pj] }

/-- Lines 127-196 with their handler: the part of the loop body after the
retry bookkeeping. -/
def attemptBody (loads : String → Option PJson) (env : AttemptEnv)
    (st : RunState) : StepOut :=
  match env.agent with
  | .error msg => handleExcept env.now (.agentError msg) st
  | .ok cleaned_json =>
    match loads cleaned_json with
    | some pj =>
      match pj.description with
      | none => handleExcept env.now (.keyError "description") st
      | some description =>
        let st2 := { st with events := st.events ++ [.showStructured description] }
        match pj.code with
        | none => handleExcept env.now (.keyError "code") st2
        | some v =>
          if pyTruthy v then
            match pj.filename with
            | none => handleExcept env.now (.keyError "filename") st2
            | some _ => successTail env pj st2
          else successTail env pj st2
    | none =>
      if st.retries < 2 then
        handleExcept env.now (.valueError "Response not in desired format.") st
      else
        let st2 := { st with events := st.events ++ [UiEvent.showRawFallback cleaned_json] }
        match record_success env.now (.dict (PyVal.str cleaned_json)) st2.evaluator with
        | (.error e, ev2) => handleExcept env.now e { st2 with evaluator := ev2 }
        | (.ok _, ev2) =>
          match record_success env.now (.str cleaned_json) ev2 with
          | (.error e2, ev3) => handleExcept env.now e2 { st2 with evaluator := ev3 }
          | (.ok _, ev3) =>
            handleExcept env.now .typeError
              { st2 with
                evaluator := ev3
                success := true }

/-- One iteration of the generation loop body (the `try` of lines 118-196
with its `except` of lines 198-226): count the attempt (ghost), replay the
error context and `record_retry` on a retry (lines 119-125), then run the
rest of the body. -/
def attemptStep (loads : String → Option PJson) (env : AttemptEnv)
    (st0 : RunState) : StepOut :=
  let stA := { st0 with attempts := st0.attempts + 1 }
  let st :=
    if 0 < stA.retries then
      { stA with
        events := stA.events ++ [.retryInfo (strTake 400 stA.error_context)]
        evaluator := record_retry stA.error_context stA.evaluator }
    else stA
  attemptBody loads env st

/-- The `while retries < max_retries and not success` loop, fuelled (the
initial fuel of `genLoop` strictly dominates the possible iteration count,
so the zero-fuel clause is unreachable from it). -/
def genLoopAux (loads : String → Option PJson) (env : Nat → AttemptEnv) :
    Nat → RunState → RunOutcome
  | 0, st => .finished st
  | fuel + 1, st =>
    if st.retries < max_retries ∧ st.success = false then
      match attemptStep loads (env st.retries) st with
      | .next st2 => genLoopAux loads env fuel st2
      | .fatal st2 e => .crashed st2 e
    else .finished st

/-- The run state at line 117, right after `start_evaluation` (line 109) and
the initialisation of the loop locals (lines 112-115). -/
def initRunState (chat_model code_model prompt : String) (t : Nat)
    (ev : Evaluator) : RunState :=
  { retries := 0
    success := false
    error_context := ""
    evaluator := start_evaluation chat_model code_model prompt t ev
    events := []
    history := []
    attempts := 0 }

/-- One full controller run, from form submission to loop exit (or crash). -/
def genLoop (loads : String → Option PJson) (env : Nat → AttemptEnv)
    (chat_model code_model prompt : String) (t : Nat) (ev : Evaluator) :
    RunOutcome :=
  genLoopAux loads env (max_retries + 1)
    (initRunState chat_model code_model prompt t ev)

/-- The final run state, whether the loop exited or crashed. -/
def outState : RunOutcome → RunState
  | .finished st => st
  | .crashed st _ => st

/-- The uncaught exception of a crashed run, if any. -/
def outErr : RunOutcome → Option PyErr
  | .finished _ => none
  | .crashed _ e => some e

/-- Whether the run exited the loop at its guard (no uncaught exception). -/
def isFinished : RunOutcome → Bool
  | .finished _ => true
  | .crashed _ _ => false

/-! ## Loop invariants: attempt counting and log growth -/

/-- The run state carried by either step outcome. -/
def stepState : StepOut → RunState
  | .next st => st
  | .fatal st _ => st

/-- Whether the iteration continued to the loop guard (no escaped exception). -/
def isNextStep : StepOut → Bool
  | .next _ => true
  | .fatal _ _ => false

/-- The number of retries recorded so far via `record_retry`. -/
def rcS (st : RunState) : Nat := st.evaluator.cur.retry_count

/-! ## Lemmas and verified properties -/

lemma splitNl_no_nl (l : List Char) (h : '\n' ∉ l) : splitNl l = [l] := by
  induction l with
  | nil => rfl
  | cons c cs ih =>
    simp only [List.mem_cons, not_or] at h
    have hc : ¬ c = '\n' := fun e => h.1 e.symm
    have ih2 := ih h.2
    simp [splitNl, hc, ih2]

lemma splitNl_append (l rest : List Char) (h : '\n' ∉ l) :
    splitNl (l ++ '\n' :: rest) = l :: splitNl rest := by
  induction l with
  | nil => simp [splitNl]
  | cons c cs ih =>
    simp only [List.mem_cons, not_or] at h
    have hc : ¬ c = '\n' := fun e => h.1 e.symm
    have ih2 := ih h.2
    simp [splitNl, hc, ih2]

lemma splitNl_joinNl (ls : List (List Char)) (h0 : ls ≠ [])
    (h : ∀ l ∈ ls, '\n' ∉ l) : splitNl (joinNl ls) = ls := by
  induction ls with
  | nil => cases h0 rfl
  | cons l ls2 ih =>
    cases ls2 with
    | nil => simpa [joinNl] using splitNl_no_nl l (h l (by simp))
    | cons l2 ls3 =>
      have hj : joinNl (l :: l2 :: ls3) = l ++ '\n' :: joinNl (l2 :: ls3) := rfl
      rw [hj, splitNl_append l _ (h l (by simp))]
      rw [ih (by simp) (fun x hx => h x (List.mem_cons_of_mem _ hx))]

/-- C7: for a code string assembled from `k` newline-separated lines of which
`m` are non-empty (contain a non-whitespace character), the computed
`CodeMetrics` has `total_lines = k`, `non_empty_lines = m`, and
`character_count` equal to the length of the string. -/
theorem c7_metrics_roundtrip (ls : List (List Char)) (h0 : ls ≠ [])
    (h : ∀ l ∈ ls, '\n' ∉ l) :
    (_calculate_code_metrics (joinNl ls)).total_lines = ls.length ∧
    (_calculate_code_metrics (joinNl ls)).non_empty_lines =
      (ls.filter lineNonBlank).length ∧
    (_calculate_code_metrics (joinNl ls)).character_count = (joinNl ls).length := by
  refine ⟨?_, ?_, rfl⟩ <;>
    simp [_calculate_code_metrics, splitNl_joinNl ls h0 h]

theorem c7_metrics_roundtrip_witness :
    ([['a'], [], ['b', ' ']] : List (List Char)) ≠ [] ∧
    (∀ l ∈ ([['a'], [], ['b', ' ']] : List (List Char)), '\n' ∉ l) ∧
    ((_calculate_code_metrics (joinNl [['a'], [], ['b', ' ']])).total_lines =
        [['a'], [], ['b', ' ']].length ∧
      (_calculate_code_metrics (joinNl [['a'], [], ['b', ' ']])).non_empty_lines =
        ([['a'], [], ['b', ' ']].filter lineNonBlank).length ∧
      (_calculate_code_metrics (joinNl [['a'], [], ['b', ' ']])).character_count =
        (joinNl [['a'], [], ['b', ' ']]).length) :=
  ⟨by decide, by decide, c7_metrics_roundtrip _ (by decide) (by decide)⟩

/-- C10: `_calculate_code_metrics` is total; its average-line-length divisor
is `max(non_empty_lines, 1)`, so with zero non-empty lines the average is 0
instead of a division by zero. -/
theorem c10_avg_line_length_safe (code : List Char)
    (h : (_calculate_code_metrics code).non_empty_lines = 0) :
    (_calculate_code_metrics code).avg_line_length = 0 := by
  simp only [_calculate_code_metrics] at h ⊢
  rw [List.length_eq_zero] at h
  simp [h]

theorem c10_avg_line_length_safe_witness :
    (_calculate_code_metrics [' ', '\n', '\t']).non_empty_lines = 0 ∧
    (_calculate_code_metrics [' ', '\n', '\t']).avg_line_length = 0 :=
  ⟨by decide, c10_avg_line_length_safe _ (by decide)⟩

/-- C5: whenever the model call raises, or it succeeds and the JSON decode of
its text raises, `query_llm` does not propagate the exception: with
`response_format = json` it returns the dict `{error: message}` and with
`response_format = json_array` it returns the one-element list
`["Error: message"]`. -/
theorem c5_query_llm_typed_errors (complete : Except String String)
    (loads : String → Except String JVal) (e : String)
    (h : complete = .error e ∨ ∃ r, complete = .ok r ∧ loads r = .error e) :
    query_llm complete loads .json = .json (JVal.obj (.cons "error" (JVal.str e) .nil)) ∧
    query_llm complete loads .json_array =
      .json (JVal.arr (.cons (JVal.str ("Error: " ++ e)) .nil)) := by
  rcases h with h | ⟨r, hr, hl⟩
  · subst h; exact ⟨rfl, rfl⟩
  · subst hr; simp [query_llm, hl]

theorem c5_query_llm_typed_errors_witness :
    ((Except.error "boom" : Except String String) = .error "boom" ∨
      ∃ r, (Except.error "boom" : Except String String) = .ok r ∧
        (fun _ : String => (Except.error "nope" : Except String JVal)) r = .error "boom") ∧
    (query_llm (.error "boom") (fun _ => .error "nope") .json =
        .json (JVal.obj (.cons "error" (JVal.str "boom") .nil)) ∧
      query_llm (.error "boom") (fun _ => .error "nope") .json_array =
        .json (JVal.arr (.cons (JVal.str ("Error: " ++ "boom")) .nil))) :=
  ⟨Or.inl rfl, c5_query_llm_typed_errors _ _ "boom" (Or.inl rfl)⟩

/-- C6 as stated is false: the chat slot is shared across every non-codellama
model name.  After a first call for "mistral", a call for "deepseek-r1"
receives the very handle that was created for "mistral". -/
theorem c6_counterexample :
    (get_llm (get_llm llmGlobals0 "mistral").2 "deepseek-r1").1 =
      (get_llm llmGlobals0 "mistral").1 ∧
    (get_llm llmGlobals0 "mistral").1.model = "mistral" ∧
    ¬ (get_llm (get_llm llmGlobals0 "mistral").2 "deepseek-r1").1.model =
        "deepseek-r1" := by
  refine ⟨rfl, rfl, ?_⟩
  intro h
  exact absurd h (by decide)

lemma runGetLlm_chat_some (names : List String) (g : LlmGlobals) (c : Ollama)
    (h : g._chat_llm = some c) : (runGetLlm g names)._chat_llm = some c := by
  induction names generalizing g with
  | nil => simpa [runGetLlm] using h
  | cons n ns ih =>
    simp only [runGetLlm]
    apply ih
    by_cases hn : n = "codellama"
    · simp only [get_llm, if_pos hn]
      cases hc : g._code_llm <;> simp [hc, h]
    · simp [get_llm, if_neg hn, h]

lemma runGetLlm_chat_none (names : List String) (g : LlmGlobals)
    (h : g._chat_llm = none) :
    (runGetLlm g names)._chat_llm =
      ((names.filter (fun m => decide (¬ m = "codellama"))).head?).map
        (fun m => (⟨m, 300⟩ : Ollama)) := by
  induction names generalizing g with
  | nil => simpa [runGetLlm] using h
  | cons n ns ih =>
    simp only [runGetLlm]
    by_cases hn : n = "codellama"
    · subst hn
      have hg2 : ((get_llm g "codellama").2)._chat_llm = none := by
        simp only [get_llm, if_pos rfl]
        cases hc : g._code_llm <;> simp [hc, h]
      rw [ih _ hg2]
      simp [List.filter_cons]
    · have hg2 : ((get_llm g n).2)._chat_llm = some (⟨n, 300⟩ : Ollama) := by
        simp [get_llm, if_neg hn, h]
      rw [runGetLlm_chat_some ns _ _ hg2]
      simp [List.filter_cons, hn]

lemma runGetLlm_code (names : List String) (g : LlmGlobals)
    (h : g._code_llm = none ∨ g._code_llm = some (⟨"codellama", 300⟩ : Ollama)) :
    (runGetLlm g names)._code_llm = none ∨
      (runGetLlm g names)._code_llm = some (⟨"codellama", 300⟩ : Ollama) := by
  induction names generalizing g with
  | nil => simpa [runGetLlm] using h
  | cons n ns ih =>
    simp only [runGetLlm]
    apply ih
    by_cases hn : n = "codellama"
    · subst hn
      rcases h with h | h
      · simp [get_llm, h]
      · simp [get_llm, h]
    · rcases h with h | h <;>
        · simp only [get_llm, if_neg hn]
          cases hc : g._chat_llm <;> simp [hc, h]

/-- C6 amended: the gateway keys its cache on whether the name is
"codellama", not per distinct model name.  It holds at most two handles: a
code handle that only "codellama" calls create and receive (always carrying
model "codellama"), and one shared chat handle, created lazily by the first
call with any other name and returned to every later non-"codellama" call
regardless of the name that call passes. -/
theorem c6_amended_two_slot_cache (names : List String) (n : String)
    (hn : n ≠ "codellama") :
    (get_llm (runGetLlm llmGlobals0 names) "codellama").1.model = "codellama" ∧
    (get_llm (runGetLlm llmGlobals0 names) n).1 =
      (match (names.filter (fun m => decide (¬ m = "codellama"))).head? with
        | some m => (⟨m, 300⟩ : Ollama)
        | none => (⟨n, 300⟩ : Ollama)) := by
  have hchat := runGetLlm_chat_none names llmGlobals0 rfl
  have hcode := runGetLlm_code names llmGlobals0 (Or.inl rfl)
  constructor
  · rcases hcode with h | h
    · simp [get_llm, h]
    · simp [get_llm, h]
  · cases hh : (names.filter (fun m => decide (¬ m = "codellama"))).head? with
    | none =>
      rw [hh] at hchat
      simp only [Option.map_none'] at hchat
      simp [get_llm, if_neg hn, hchat]
    | some m =>
      rw [hh] at hchat
      simp only [Option.map_some'] at hchat
      simp [get_llm, if_neg hn, hchat]

theorem c6_amended_two_slot_cache_witness :
    ("deepseek-r1" : String) ≠ "codellama" ∧
    ((get_llm (runGetLlm llmGlobals0 ["mistral", "codellama"]) "codellama").1.model =
        "codellama" ∧
      (get_llm (runGetLlm llmGlobals0 ["mistral", "codellama"]) "deepseek-r1").1 =
        (match (["mistral", "codellama"].filter
            (fun m => decide (¬ m = "codellama"))).head? with
          | some m => (⟨m, 300⟩ : Ollama)
          | none => (⟨"deepseek-r1", 300⟩ : Ollama))) :=
  ⟨by decide, c6_amended_two_slot_cache ["mistral", "codellama"] "deepseek-r1" (by decide)⟩

lemma runFeedback_filter_of_recorded (calls : List FeedbackEntry)
    (store : List FeedbackEntry) (x : String)
    (h : is_feedback_recorded store x = true) :
    (runFeedback store calls).filter (fun e => e.code_id == x) =
      store.filter (fun e => e.code_id == x) := by
  induction calls generalizing store with
  | nil => rfl
  | cons e es ih =>
    simp only [runFeedback, record_feedback]
    by_cases hrec : is_feedback_recorded store e.code_id = true
    · simpa [hrec] using ih store h
    · have hne : ¬ (e.code_id == x) = true := by
        intro hx
        rw [beq_iff_eq] at hx
        exact hrec (hx ▸ h)
      have h2 : is_feedback_recorded (store ++ [e]) x = true := by
        simp only [is_feedback_recorded, List.any_append] at h ⊢
        simp [h]
      rw [if_neg hrec, ih _ h2, List.filter_append]
      simp [hne]

lemma runFeedback_filter_take_one (calls : List FeedbackEntry)
    (store : List FeedbackEntry) (x : String)
    (h : store.filter (fun e => e.code_id == x) = []) :
    (runFeedback store calls).filter (fun e => e.code_id == x) =
      (calls.filter (fun e => e.code_id == x)).take 1 := by
  induction calls generalizing store with
  | nil => simp [runFeedback, h]
  | cons e es ih =>
    have hnotrec : is_feedback_recorded store x = false := by
      rw [← Bool.not_eq_true]
      intro hx
      simp only [is_feedback_recorded, List.any_eq_true] at hx
      obtain ⟨a, ha, hax⟩ := hx
      have : a ∈ store.filter (fun e => e.code_id == x) :=
        List.mem_filter.2 ⟨ha, hax⟩
      simp [h] at this
    simp only [runFeedback, record_feedback]
    by_cases hx : e.code_id = x
    · subst hx
      rw [if_neg (by simp [hnotrec])]
      have hrec2 : is_feedback_recorded (store ++ [e]) e.code_id = true := by
        simp [is_feedback_recorded]
      rw [runFeedback_filter_of_recorded es _ _ hrec2, List.filter_append]
      simp [h, List.filter_cons]
    · have hne : ¬ (e.code_id == x) = true := by simp [hx]
      by_cases hrec : is_feedback_recorded store e.code_id = true
      · rw [if_pos hrec, ih store h, List.filter_cons]
        simp [hne]
      · rw [if_neg hrec]
        have h2 : (store ++ [e]).filter (fun e => e.code_id == x) = [] := by
          rw [List.filter_append, h]
          simp [hne]
        rw [ih _ h2, List.filter_cons]
        simp [hne]

/-- C4: `record_feedback` is idempotent per `code_id` with first-write-wins
semantics.  Starting from an empty store, after any sequence of calls the
entries stored for an id `x` are exactly the first call made for `x` (so at
most one entry, carrying the first call's data, never overwritten), and every
call — in particular every subsequent call for an already-recorded id —
returns success (`True`). -/
theorem c4_record_feedback_first_write_wins (calls : List FeedbackEntry) (x : String) :
    (runFeedback [] calls).filter (fun e => e.code_id == x) =
      (calls.filter (fun e => e.code_id == x)).take 1 ∧
    (∀ store entry, (record_feedback store entry).2 = true) := by
  refine ⟨runFeedback_filter_take_one calls [] x rfl, fun store entry => ?_⟩
  simp only [record_feedback]
  by_cases hrec : is_feedback_recorded store entry.code_id = true
  · rw [if_pos hrec]
  · rw [if_neg hrec]

lemma applyFin_start_none (op : FinOp) (ev : Evaluator)
    (h : ev.cur.start_time = none) :
    (applyFin op ev).1 = .error (.keyError "start_time") ∧
    (applyFin op ev).2.log = ev.log ∧
    (applyFin op ev).2.cur.start_time = none := by
  cases op <;> simp [applyFin, record_success, record_failure, h]

lemma runFins_start_none (ops : List FinOp) (ev : Evaluator)
    (h : ev.cur.start_time = none) :
    (runFins ops ev).log = ev.log := by
  induction ops generalizing ev with
  | nil => rfl
  | cons op rest ih =>
    obtain ⟨-, h2, h3⟩ := applyFin_start_none op ev h
    rw [runFins, ih _ h3, h2]

/-- C2 fails on the code: when the agent call succeeds on every attempt but
no attempt parses as JSON, the third attempt does surface the raw output and
log a degraded-success record (line 167), but the unconditional second
`record_success` of line 170 then raises `KeyError` on the already-popped
`start_time`; the run falls into the exhausted-failure branch (retry warning,
"failed after 3 attempts" banner) and finally crashes with the `KeyError`
raised by `record_failure` inside the handler — it does not terminate as a
clean degraded success. -/
theorem c2_all_parse_failures_crash :
    outErr (genLoop (fun _ => none)
        (fun _ => { agent := .ok "hello", write_ok := true, now := 5 })
        "mistral" "codellama" "make code" 0 evaluator0) =
      some (.keyError "start_time") ∧
    (outState (genLoop (fun _ => none)
        (fun _ => { agent := .ok "hello", write_ok := true, now := 5 })
        "mistral" "codellama" "make code" 0 evaluator0)).events =
      [.warnRetry 1,
       .retryInfo "Response not in desired format.",
       .warnRetry 2,
       .retryInfo "Response not in desired format.",
       .showRawFallback "hello",
       .warnRetry 3,
       .failedAfterMax "KeyError: start_time"] ∧
    (outState (genLoop (fun _ => none)
        (fun _ => { agent := .ok "hello", write_ok := true, now := 5 })
        "mistral" "codellama" "make code" 0 evaluator0)).evaluator.log.map
        (fun r => (r.success, r.retry_count)) = [(true, 2)] ∧
    (outState (genLoop (fun _ => none)
        (fun _ => { agent := .ok "hello", write_ok := true, now := 5 })
        "mistral" "codellama" "make code" 0 evaluator0)).attempts = 3 ∧
    (outState (genLoop (fun _ => none)
        (fun _ => { agent := .ok "hello", write_ok := true, now := 5 })
        "mistral" "codellama" "make code" 0 evaluator0)).success = false := by
  decide

/-- C8 fails on the code: when the artifact write of a successful generation
raises, the handler of line 190 formats `e[:200]`, which itself raises
`TypeError`; no file-error message is ever reported, the exception is
swallowed by the generation loop's `except`, a spurious "Retry attempt 1/3"
warning is shown, and the completion banner and history append (lines
193-196) of the already-successful generation are skipped. -/
theorem c8_write_failure_diverts_run :
    outErr (genLoop
        (fun s => if s = "good"
          then some { description := some "desc", code := some (PyVal.str "print"),
                      filename := some "f.py" }
          else none)
        (fun _ => { agent := .ok "good", write_ok := false, now := 7 })
        "mistral" "codellama" "p" 0 evaluator0) = none ∧
    (outState (genLoop
        (fun s => if s = "good"
          then some { description := some "desc", code := some (PyVal.str "print"),
                      filename := some "f.py" }
          else none)
        (fun _ => { agent := .ok "good", write_ok := false, now := 7 })
        "mistral" "codellama" "p" 0 evaluator0)).success = true ∧
    (outState (genLoop
        (fun s => if s = "good"
          then some { description := some "desc", code := some (PyVal.str "print"),
                      filename := some "f.py" }
          else none)
        (fun _ => { agent := .ok "good", write_ok := false, now := 7 })
        "mistral" "codellama" "p" 0 evaluator0)).events =
      [.showStructured "desc", .warnRetry 1] ∧
    (outState (genLoop
        (fun s => if s = "good"
          then some { description := some "desc", code := some (PyVal.str "print"),
                      filename := some "f.py" }
          else none)
        (fun _ => { agent := .ok "good", write_ok := false, now := 7 })
        "mistral" "codellama" "p" 0 evaluator0)).history = [] ∧
    (outState (genLoop
        (fun s => if s = "good"
          then some { description := some "desc", code := some (PyVal.str "print"),
                      filename := some "f.py" }
          else none)
        (fun _ => { agent := .ok "good", write_ok := false, now := 7 })
        "mistral" "codellama" "p" 0 evaluator0)).evaluator.log.map
        (fun r => (r.success, r.retry_count)) = [(true, 0)] := by
  decide

lemma record_retry_parts (e : String) (ev : Evaluator) :
    (record_retry e ev).log = ev.log ∧
    (record_retry e ev).cur.start_time = ev.cur.start_time ∧
    (record_retry e ev).cur.retry_count = ev.cur.retry_count + 1 :=
  ⟨rfl, rfl, rfl⟩

lemma record_success_dict_str_some (now : Nat) (code : String) (ev : Evaluator)
    (t0 : Nat) (h : ev.cur.start_time = some t0) :
    (record_success now (.dict (.str code)) ev).1 = .ok (now - t0) ∧
    (record_success now (.dict (.str code)) ev).2.log.length = ev.log.length + 1 ∧
    (record_success now (.dict (.str code)) ev).2.cur.start_time = none ∧
    (record_success now (.dict (.str code)) ev).2.cur.retry_count =
      ev.cur.retry_count := by
  simp [record_success, h]

lemma record_success_dict_other_some (now : Nat) (b : Bool) (ev : Evaluator)
    (t0 : Nat) (h : ev.cur.start_time = some t0) :
    (record_success now (.dict (.other b)) ev).1 = .error .typeError ∧
    (record_success now (.dict (.other b)) ev).2.log = ev.log ∧
    (record_success now (.dict (.other b)) ev).2.cur.start_time = none ∧
    (record_success now (.dict (.other b)) ev).2.cur.retry_count =
      ev.cur.retry_count := by
  simp [record_success, h]

lemma record_success_start_none (now : Nat) (arg : EvalArg) (ev : Evaluator)
    (h : ev.cur.start_time = none) :
    (record_success now arg ev).1 = .error (.keyError "start_time") ∧
    (record_success now arg ev).2.log = ev.log ∧
    (record_success now arg ev).2.cur.start_time = none ∧
    (record_success now arg ev).2.cur.retry_count = ev.cur.retry_count := by
  cases arg <;> simp [record_success, h]

lemma record_failure_some (now : Nat) (err : String) (ev : Evaluator)
    (t0 : Nat) (h : ev.cur.start_time = some t0) :
    (record_failure now err ev).1 = .ok (now - t0) ∧
    (record_failure now err ev).2.log.length = ev.log.length + 1 ∧
    (record_failure now err ev).2.cur.start_time = none ∧
    (record_failure now err ev).2.cur.retry_count = ev.cur.retry_count := by
  simp [record_failure, h]

lemma record_failure_start_none (now : Nat) (err : String) (ev : Evaluator)
    (h : ev.cur.start_time = none) :
    (record_failure now err ev).1 = .error (.keyError "start_time") ∧
    (record_failure now err ev).2.log = ev.log ∧
    (record_failure now err ev).2.cur.start_time = none ∧
    (record_failure now err ev).2.cur.retry_count = ev.cur.retry_count := by
  simp [record_failure, h]

lemma handleExcept_spec (now : Nat) (e : PyErr) (st : RunState) :
    (stepState (handleExcept now e st)).attempts = st.attempts ∧
    rcS (stepState (handleExcept now e st)) = rcS st ∧
    (stepState (handleExcept now e st)).retries = st.retries + 1 ∧
    (stepState (handleExcept now e st)).success = st.success ∧
    (st.retries + 1 < max_retries →
      (stepState (handleExcept now e st)).evaluator = st.evaluator ∧
      isNextStep (handleExcept now e st) = true) ∧
    (max_retries ≤ st.retries + 1 →
      (∀ t0, st.evaluator.cur.start_time = some t0 →
        (stepState (handleExcept now e st)).evaluator.log.length =
          st.evaluator.log.length + 1 ∧
        (stepState (handleExcept now e st)).evaluator.cur.start_time = none ∧
        isNextStep (handleExcept now e st) = true) ∧
      (st.evaluator.cur.start_time = none →
        (stepState (handleExcept now e st)).evaluator.log =
          st.evaluator.log ∧
        (stepState (handleExcept now e st)).evaluator.cur.start_time = none ∧
        isNextStep (handleExcept now e st) = false)) := by
  by_cases hb : max_retries ≤ st.retries + 1
  · cases hst : st.evaluator.cur.start_time with
    | some t0 =>
      obtain ⟨h1, h2, h3, h4⟩ := record_failure_some now (pyErrStr e)
        st.evaluator t0 hst
      rcases hrf : record_failure now (pyErrStr e) st.evaluator with ⟨r, ev2⟩
      rw [hrf] at h1 h2 h3 h4
      simp only at h1 h2 h3 h4
      subst h1
      simp [handleExcept, hb, hrf, stepState, isNextStep, rcS, h2, h3, h4, hst]
    | none =>
      obtain ⟨h1, h2, h3, h4⟩ := record_failure_start_none now (pyErrStr e)
        st.evaluator hst
      rcases hrf : record_failure now (pyErrStr e) st.evaluator with ⟨r, ev2⟩
      rw [hrf] at h1 h2 h3 h4
      simp only at h1 h2 h3 h4
      subst h1
      simp [handleExcept, hb, hrf, stepState, isNextStep, rcS, h2, h3, h4, hst]
  · simp [handleExcept, hb, stepState, isNextStep, rcS]

lemma handleExcept_post_final (now : Nat) (e : PyErr) (st : RunState) (n1 : Nat)
    (hlog : st.evaluator.log.length = n1)
    (hst : st.evaluator.cur.start_time = none) :
    (stepState (handleExcept now e st)).attempts = st.attempts ∧
    rcS (stepState (handleExcept now e st)) = rcS st ∧
    (stepState (handleExcept now e st)).retries = st.retries + 1 ∧
    (stepState (handleExcept now e st)).success = st.success ∧
    (stepState (handleExcept now e st)).evaluator.log.length = n1 ∧
    (stepState (handleExcept now e st)).evaluator.cur.start_time = none ∧
    (isNextStep (handleExcept now e st) = false →
      max_retries ≤ (stepState (handleExcept now e st)).retries) := by
  obtain ⟨h1, h2, h3, h4, h5, h6⟩ := handleExcept_spec now e st
  by_cases hb : max_retries ≤ st.retries + 1
  · obtain ⟨hl, hs, hn⟩ := (h6 hb).2 hst
    exact ⟨h1, h2, h3, h4, by rw [hl, hlog], hs, fun _ => by omega⟩
  · obtain ⟨hev, hn⟩ := h5 (by omega)
    refine ⟨h1, h2, h3, h4, by rw [hev, hlog], by rw [hev, hst], fun hf => ?_⟩
    rw [hn] at hf
    cases hf

lemma handleExcept_from_body (now : Nat) (e : PyErr) (st : RunState) (n0 : Nat)
    (hsucc : st.success = false) (hlog : st.evaluator.log.length = n0) :
    (stepState (handleExcept now e st)).attempts = st.attempts ∧
    rcS (stepState (handleExcept now e st)) = rcS st ∧
    (stepState (handleExcept now e st)).retries = st.retries + 1 ∧
    (stepState (handleExcept now e st)).success = false ∧
    ((stepState (handleExcept now e st)).retries < max_retries →
      (stepState (handleExcept now e st)).evaluator.log.length = n0 ∧
      isNextStep (handleExcept now e st) = true) ∧
    (isNextStep (handleExcept now e st) = true →
      max_retries ≤ (stepState (handleExcept now e st)).retries →
      (stepState (handleExcept now e st)).evaluator.log.length = n0 + 1) ∧
    ((stepState (handleExcept now e st)).evaluator.log.length = n0 ∨
      (stepState (handleExcept now e st)).evaluator.log.length = n0 + 1) ∧
    (isNextStep (handleExcept now e st) = false →
      max_retries ≤ (stepState (handleExcept now e st)).retries) := by
  obtain ⟨h1, h2, h3, h4, h5, h6⟩ := handleExcept_spec now e st
  by_cases hb : max_retries ≤ st.retries + 1
  · cases hstt : st.evaluator.cur.start_time with
    | some t0 =>
      obtain ⟨hl, hs, hn⟩ := (h6 hb).1 t0 hstt
      refine ⟨h1, h2, h3, by rw [h4, hsucc], ?_, ?_, ?_, ?_⟩
      · intro hlt
        rw [h3] at hlt
        exact absurd hb (by omega)
      · intro _ _
        rw [hl, hlog]
      · exact Or.inr (by rw [hl, hlog])
      · intro hf
        rw [hn] at hf
        cases hf
    | none =>
      obtain ⟨hl, hs, hn⟩ := (h6 hb).2 hstt
      refine ⟨h1, h2, h3, by rw [h4, hsucc], ?_, ?_, ?_, ?_⟩
      · intro hlt
        rw [h3] at hlt
        exact absurd hb (by omega)
      · intro ht _
        rw [hn] at ht
        cases ht
      · exact Or.inl (by rw [hl, hlog])
      · intro _
        rw [h3]
        exact hb
  · obtain ⟨hev, hn⟩ := h5 (by omega)
    refine ⟨h1, h2, h3, by rw [h4, hsucc], ?_, ?_, ?_, ?_⟩
    · intro _
      exact ⟨by rw [hev, hlog], hn⟩
    · intro _ hge
      rw [h3] at hge
      exact absurd hge hb
    · exact Or.inl (by rw [hev, hlog])
    · intro hf
      rw [hn] at hf
      cases hf

lemma successTail_spec (env : AttemptEnv) (pj : PJson) (st : RunState)
    (n0 : Nat) (hsucc : st.success = false) (_hret : st.retries < max_retries)
    (hlog : st.evaluator.log.length = n0) :
    (stepState (successTail env pj st)).attempts = st.attempts ∧
    rcS (stepState (successTail env pj st)) = rcS st ∧
    st.retries ≤ (stepState (successTail env pj st)).retries ∧
    (stepState (successTail env pj st)).retries ≤ st.retries + 1 ∧
    ((stepState (successTail env pj st)).success = false →
      (stepState (successTail env pj st)).retries = st.retries + 1) ∧
    ((stepState (successTail env pj st)).success = true →
      (stepState (successTail env pj st)).evaluator.log.length = n0 + 1) ∧
    ((stepState (successTail env pj st)).success = false →
      (stepState (successTail env pj st)).retries < max_retries →
      (stepState (successTail env pj st)).evaluator.log.length = n0 ∧
      isNextStep (successTail env pj st) = true) ∧
    (isNextStep (successTail env pj st) = true →
      max_retries ≤ (stepState (successTail env pj st)).retries →
      (stepState (successTail env pj st)).evaluator.log.length = n0 + 1) ∧
    ((stepState (successTail env pj st)).evaluator.log.length = n0 ∨
      (stepState (successTail env pj st)).evaluator.log.length = n0 + 1) ∧
    (isNextStep (successTail env pj st) = false →
      max_retries ≤ (stepState (successTail env pj st)).retries) := by
  cases hstt : st.evaluator.cur.start_time with
  | none =>
    obtain ⟨m1, m2, m3, m4⟩ := record_success_start_none env.now
      (.dict (pj.code.getD (PyVal.str ""))) st.evaluator hstt
    rcases hrs : record_success env.now (.dict (pj.code.getD (PyVal.str "")))
      st.evaluator with ⟨r, ev2⟩
    rw [hrs] at m1 m2 m3 m4
    simp only at m1 m2 m3 m4
    subst m1
    have hrun : successTail env pj st =
        handleExcept env.now (.keyError "start_time")
          { st with evaluator := ev2 } := by
      simp [successTail, hrs]
    rw [hrun]
    have hlog2 : ({ st with evaluator := ev2 } : RunState).evaluator.log.length =
        n0 := by
      show ev2.log.length = n0
      rw [m2]
      exact hlog
    obtain ⟨f1, f2, f3, f4, f5, f6, f7, f8⟩ := handleExcept_from_body env.now
      (.keyError "start_time") { st with evaluator := ev2 } n0
      (by simpa using hsucc) hlog2
    simp only at f1 f2 f3 f4 f5 f6 f7 f8
    refine ⟨f1, ?_, by omega, by omega, fun _ => f3, ?_,
      fun _ hlt => f5 hlt, f6, f7, f8⟩
    · rw [f2]
      simp only [rcS]
      rw [m4]
    · intro hs
      rw [f4] at hs
      cases hs
  | some t0 =>
    cases hv : pj.code.getD (PyVal.str "") with
    | other b =>
      obtain ⟨o1, o2, o3, o4⟩ := record_success_dict_other_some env.now b
        st.evaluator t0 hstt
      rcases hrs : record_success env.now (.dict (.other b)) st.evaluator
        with ⟨r, ev2⟩
      rw [hrs] at o1 o2 o3 o4
      simp only at o1 o2 o3 o4
      subst o1
      have hrun : successTail env pj st =
          handleExcept env.now .typeError { st with evaluator := ev2 } := by
        simp [successTail, hv, hrs]
      rw [hrun]
      have hlog2 : ({ st with evaluator := ev2 } : RunState).evaluator.log.length =
          n0 := by
        show ev2.log.length = n0
        rw [o2]
        exact hlog
      obtain ⟨f1, f2, f3, f4, f5, f6, f7, f8⟩ := handleExcept_from_body env.now
        .typeError { st with evaluator := ev2 } n0 (by simpa using hsucc) hlog2
      simp only at f1 f2 f3 f4 f5 f6 f7 f8
      refine ⟨f1, ?_, by omega, by omega, fun _ => f3, ?_,
        fun _ hlt => f5 hlt, f6, f7, f8⟩
      · rw [f2]
        simp only [rcS]
        rw [o4]
      · intro hs
        rw [f4] at hs
        cases hs
    | str code =>
      obtain ⟨h1, h2, h3, h4⟩ := record_success_dict_str_some env.now code
        st.evaluator t0 hstt
      rcases hrs : record_success env.now (.dict (.str code)) st.evaluator
        with ⟨r, ev2⟩
      rw [hrs] at h1 h2 h3 h4
      simp only at h1 h2 h3 h4
      subst h1
      have hev2log : ev2.log.length = n0 + 1 := by rw [h2, hlog]
      cases hfn : pj.filename with
      | none =>
        have hrun : successTail env pj st =
            handleExcept env.now .typeError
              { st with evaluator := ev2, success := true } := by
          simp [successTail, hv, hrs, hfn, pySliceExn]
        rw [hrun]
        obtain ⟨g1, g2, g3, g4, g5, g6, g7⟩ := handleExcept_post_final env.now
          .typeError { st with evaluator := ev2, success := true } (n0 + 1)
          hev2log h3
        have g3s : (stepState (handleExcept env.now .typeError
            { st with evaluator := ev2, success := true })).retries =
          st.retries + 1 := by simpa using g3
        have g4s : (stepState (handleExcept env.now .typeError
            { st with evaluator := ev2, success := true })).success = true := by
          simpa using g4
        refine ⟨g1, by simpa [rcS, h4] using g2, by omega, by omega,
          fun _ => g3s, fun _ => g5, ?_, fun _ _ => g5, Or.inr g5, g7⟩
        intro hs
        rw [g4s] at hs
        cases hs
      | some filename =>
        by_cases hw : env.write_ok
        · have hrun : successTail env pj st =
              .next { st with
                      evaluator := ev2
                      success := true
                      events := st.events ++
                        [.fileSaved filename, .infoCompletion (env.now - t0)]
                      history := st.history ++ [pj] } := by
            simp [successTail, hv, hrs, hfn, hw]
          rw [hrun]
          simp [stepState, isNextStep, rcS, h4, hev2log, h3]
        · have hrun : successTail env pj st =
              handleExcept env.now .typeError
                { st with evaluator := ev2, success := true } := by
            simp [successTail, hv, hrs, hfn, hw, pySliceExn]
          rw [hrun]
          obtain ⟨g1, g2, g3, g4, g5, g6, g7⟩ := handleExcept_post_final env.now
            .typeError { st with evaluator := ev2, success := true } (n0 + 1)
            hev2log h3
          have g3s : (stepState (handleExcept env.now .typeError
              { st with evaluator := ev2, success := true })).retries =
            st.retries + 1 := by simpa using g3
          have g4s : (stepState (handleExcept env.now .typeError
              { st with evaluator := ev2, success := true })).success = true := by
            simpa using g4
          refine ⟨g1, by simpa [rcS, h4] using g2, by omega, by omega,
            fun _ => g3s, fun _ => g5, ?_, fun _ _ => g5, Or.inr g5, g7⟩
          intro hs
          rw [g4s] at hs
          cases hs

lemma attemptBody_spec (loads : String → Option PJson) (env : AttemptEnv)
    (st : RunState) (n0 : Nat)
    (hsucc : st.success = false) (hret : st.retries < max_retries)
    (hlog : st.evaluator.log.length = n0) :
    (stepState (attemptBody loads env st)).attempts = st.attempts ∧
    rcS (stepState (attemptBody loads env st)) = rcS st ∧
    st.retries ≤ (stepState (attemptBody loads env st)).retries ∧
    (stepState (attemptBody loads env st)).retries ≤ st.retries + 1 ∧
    ((stepState (attemptBody loads env st)).success = false →
      (stepState (attemptBody loads env st)).retries = st.retries + 1) ∧
    ((stepState (attemptBody loads env st)).success = true →
      (stepState (attemptBody loads env st)).evaluator.log.length = n0 + 1) ∧
    ((stepState (attemptBody loads env st)).success = false →
      (stepState (attemptBody loads env st)).retries < max_retries →
      (stepState (attemptBody loads env st)).evaluator.log.length = n0 ∧
      isNextStep (attemptBody loads env st) = true) ∧
    (isNextStep (attemptBody loads env st) = true →
      max_retries ≤ (stepState (attemptBody loads env st)).retries →
      (stepState (attemptBody loads env st)).evaluator.log.length = n0 + 1) ∧
    ((stepState (attemptBody loads env st)).evaluator.log.length = n0 ∨
      (stepState (attemptBody loads env st)).evaluator.log.length = n0 + 1) ∧
    (isNextStep (attemptBody loads env st) = false →
      max_retries ≤ (stepState (attemptBody loads env st)).retries) := by
  cases hag : env.agent with
  | error msg =>
    have hrun : attemptBody loads env st =
        handleExcept env.now (.agentError msg) st := by
      simp [attemptBody, hag]
    rw [hrun]
    obtain ⟨f1, f2, f3, f4, f5, f6, f7, f8⟩ := handleExcept_from_body env.now
      (.agentError msg) st n0 hsucc hlog
    refine ⟨f1, f2, by omega, by omega, fun _ => f3, ?_,
      fun _ hlt => f5 hlt, f6, f7, f8⟩
    intro hs
    rw [f4] at hs
    cases hs
  | ok cleaned_json =>
    cases hld : loads cleaned_json with
    | some pj =>
      cases hd : pj.description with
      | none =>
        have hrun : attemptBody loads env st =
            handleExcept env.now (.keyError "description") st := by
          simp [attemptBody, hag, hld, hd]
        rw [hrun]
        obtain ⟨f1, f2, f3, f4, f5, f6, f7, f8⟩ := handleExcept_from_body env.now
          (.keyError "description") st n0 hsucc hlog
        refine ⟨f1, f2, by omega, by omega, fun _ => f3, ?_,
          fun _ hlt => f5 hlt, f6, f7, f8⟩
        intro hs
        rw [f4] at hs
        cases hs
      | some description =>
        cases hcd : pj.code with
        | none =>
          have hrun : attemptBody loads env st =
              handleExcept env.now (.keyError "code")
                { st with events := st.events ++ [.showStructured description] } := by
            simp [attemptBody, hag, hld, hd, hcd]
          rw [hrun]
          obtain ⟨f1, f2, f3, f4, f5, f6, f7, f8⟩ := handleExcept_from_body env.now
            (.keyError "code")
            { st with events := st.events ++ [.showStructured description] } n0
            (by simpa using hsucc) (by simpa using hlog)
          simp only at f1 f2 f3 f4 f5 f6 f7 f8
          refine ⟨f1, by simpa [rcS] using f2, by omega, by omega, fun _ => f3, ?_,
            fun _ hlt => f5 hlt, f6, f7, f8⟩
          intro hs
          rw [f4] at hs
          cases hs
        | some v =>
          by_cases htr : pyTruthy v
          · cases hfn : pj.filename with
            | none =>
              have hrun : attemptBody loads env st =
                  handleExcept env.now (.keyError "filename")
                    { st with
                      events := st.events ++ [.showStructured description] } := by
                simp [attemptBody, hag, hld, hd, hcd, htr, hfn]
              rw [hrun]
              obtain ⟨f1, f2, f3, f4, f5, f6, f7, f8⟩ := handleExcept_from_body
                env.now (.keyError "filename")
                { st with events := st.events ++ [.showStructured description] } n0
                (by simpa using hsucc) (by simpa using hlog)
              simp only at f1 f2 f3 f4 f5 f6 f7 f8
              refine ⟨f1, by simpa [rcS] using f2, by omega, by omega,
                fun _ => f3, ?_, fun _ hlt => f5 hlt, f6, f7, f8⟩
              intro hs
              rw [f4] at hs
              cases hs
            | some filename =>
              have hrun : attemptBody loads env st =
                  successTail env pj
                    { st with
                      events := st.events ++ [.showStructured description] } := by
                simp [attemptBody, hag, hld, hd, hcd, htr, hfn]
              rw [hrun]
              obtain ⟨p1, p2, p3, p4, p5, p6, p7, p8, p9, p10⟩ :=
                successTail_spec env pj
                  { st with events := st.events ++ [.showStructured description] }
                  n0 (by simpa using hsucc) (by simpa using hret)
                  (by simpa using hlog)
              simp only at p1 p2 p3 p4 p5 p6 p7 p8 p9 p10
              exact ⟨p1, by simpa [rcS] using p2, p3, p4, p5, p6, p7, p8, p9, p10⟩
          · have hrun : attemptBody loads env st =
                successTail env pj
                  { st with
                    events := st.events ++ [.showStructured description] } := by
              simp [attemptBody, hag, hld, hd, hcd, htr]
            rw [hrun]
            obtain ⟨p1, p2, p3, p4, p5, p6, p7, p8, p9, p10⟩ :=
              successTail_spec env pj
                { st with events := st.events ++ [.showStructured description] }
                n0 (by simpa using hsucc) (by simpa using hret)
                (by simpa using hlog)
            simp only at p1 p2 p3 p4 p5 p6 p7 p8 p9 p10
            exact ⟨p1, by simpa [rcS] using p2, p3, p4, p5, p6, p7, p8, p9, p10⟩
    | none =>
      by_cases hr2 : st.retries < 2
      · have hrun : attemptBody loads env st =
            handleExcept env.now (.valueError "Response not in desired format.")
              st := by
          simp [attemptBody, hag, hld, hr2]
        rw [hrun]
        obtain ⟨f1, f2, f3, f4, f5, f6, f7, f8⟩ := handleExcept_from_body env.now
          (.valueError "Response not in desired format.") st n0 hsucc hlog
        refine ⟨f1, f2, by omega, by omega, fun _ => f3, ?_,
          fun _ hlt => f5 hlt, f6, f7, f8⟩
        intro hs
        rw [f4] at hs
        cases hs
      · cases hstt : st.evaluator.cur.start_time with
        | some t0 =>
          obtain ⟨k1, k2, k3, k4⟩ := record_success_dict_str_some env.now
            cleaned_json st.evaluator t0 hstt
          rcases hrs : record_success env.now (.dict (.str cleaned_json))
            st.evaluator with ⟨r, ev2⟩
          rw [hrs] at k1 k2 k3 k4
          simp only at k1 k2 k3 k4
          subst k1
          obtain ⟨m1, m2, m3, m4⟩ := record_success_start_none env.now
            (.str cleaned_json) ev2 k3
          rcases hrs2 : record_success env.now (.str cleaned_json) ev2
            with ⟨r2, ev3⟩
          rw [hrs2] at m1 m2 m3 m4
          simp only at m1 m2 m3 m4
          subst m1
          have hrun : attemptBody loads env st =
              handleExcept env.now (.keyError "start_time")
                { st with
                  events := st.events ++ [UiEvent.showRawFallback cleaned_json]
                  evaluator := ev3 } := by
            simp [attemptBody, hag, hld, hr2, hrs, hrs2]
          rw [hrun]
          have hev3log : ev3.log.length = n0 + 1 := by rw [m2, k2, hlog]
          obtain ⟨g1, g2, g3, g4, g5, g6, g7⟩ := handleExcept_post_final env.now
            (.keyError "start_time")
            { st with
              events := st.events ++ [UiEvent.showRawFallback cleaned_json]
              evaluator := ev3 } (n0 + 1) hev3log m3
          simp only at g1 g2 g3 g4 g5 g6 g7
          have hrc : rcS
              (stepState (handleExcept env.now (.keyError "start_time")
                { st with
                  events := st.events ++ [UiEvent.showRawFallback cleaned_json]
                  evaluator := ev3 })) = rcS st := by
            rw [g2]
            simp only [rcS]
            rw [m4, k4]
          refine ⟨g1, hrc, by omega, by omega, fun _ => g3, ?_, ?_,
            fun _ _ => g5, Or.inr g5, g7⟩
          · intro hs
            rw [g4] at hs
            rw [hsucc] at hs
            cases hs
          · intro _ hlt
            rw [g3] at hlt
            simp only [max_retries] at hlt
            omega
        | none =>
          obtain ⟨m1, m2, m3, m4⟩ := record_success_start_none env.now
            (.dict (.str cleaned_json)) st.evaluator hstt
          rcases hrs : record_success env.now (.dict (.str cleaned_json))
            st.evaluator with ⟨r, ev2⟩
          rw [hrs] at m1 m2 m3 m4
          simp only at m1 m2 m3 m4
          subst m1
          have hrun : attemptBody loads env st =
              handleExcept env.now (.keyError "start_time")
                { st with
                  events := st.events ++ [UiEvent.showRawFallback cleaned_json]
                  evaluator := ev2 } := by
            simp [attemptBody, hag, hld, hr2, hrs]
          rw [hrun]
          have hlog2 : ({ st with
              events := st.events ++ [UiEvent.showRawFallback cleaned_json]
              evaluator := ev2 } : RunState).evaluator.log.length = n0 := by
            show ev2.log.length = n0
            rw [m2]
            exact hlog
          obtain ⟨f1, f2, f3, f4, f5, f6, f7, f8⟩ := handleExcept_from_body
            env.now (.keyError "start_time")
            { st with
              events := st.events ++ [UiEvent.showRawFallback cleaned_json]
              evaluator := ev2 } n0 (by simpa using hsucc) hlog2
          simp only at f1 f2 f3 f4 f5 f6 f7 f8
          refine ⟨f1, ?_, by omega, by omega, fun _ => f3, ?_,
            fun _ hlt => f5 hlt, f6, f7, f8⟩
          · rw [f2]
            simp only [rcS]
            rw [m4]
          · intro hs
            rw [f4] at hs
            cases hs

lemma attemptStep_spec (loads : String → Option PJson) (env : AttemptEnv)
    (st : RunState) (n0 : Nat)
    (hsucc : st.success = false) (hret : st.retries < max_retries)
    (hlog : st.evaluator.log.length = n0) :
    (stepState (attemptStep loads env st)).attempts = st.attempts + 1 ∧
    rcS (stepState (attemptStep loads env st)) =
      rcS st + (if 0 < st.retries then 1 else 0) ∧
    st.retries ≤ (stepState (attemptStep loads env st)).retries ∧
    (stepState (attemptStep loads env st)).retries ≤ st.retries + 1 ∧
    ((stepState (attemptStep loads env st)).success = false →
      (stepState (attemptStep loads env st)).retries = st.retries + 1) ∧
    ((stepState (attemptStep loads env st)).success = true →
      (stepState (attemptStep loads env st)).evaluator.log.length = n0 + 1) ∧
    ((stepState (attemptStep loads env st)).success = false →
      (stepState (attemptStep loads env st)).retries < max_retries →
      (stepState (attemptStep loads env st)).evaluator.log.length = n0 ∧
      isNextStep (attemptStep loads env st) = true) ∧
    (isNextStep (attemptStep loads env st) = true →
      max_retries ≤ (stepState (attemptStep loads env st)).retries →
      (stepState (attemptStep loads env st)).evaluator.log.length = n0 + 1) ∧
    ((stepState (attemptStep loads env st)).evaluator.log.length = n0 ∨
      (stepState (attemptStep loads env st)).evaluator.log.length = n0 + 1) ∧
    (isNextStep (attemptStep loads env st) = false →
      max_retries ≤ (stepState (attemptStep loads env st)).retries) := by
  by_cases hr0 : 0 < st.retries
  · have hrun : attemptStep loads env st =
        attemptBody loads env
          { st with
            attempts := st.attempts + 1
            events := st.events ++ [.retryInfo (strTake 400 st.error_context)]
            evaluator := record_retry st.error_context st.evaluator } := by
      simp [attemptStep, hr0]
    rw [hrun]
    obtain ⟨b1, b2, b3, b4, b5, b6, b7, b8, b9, b10⟩ := attemptBody_spec loads env
      { st with
        attempts := st.attempts + 1
        events := st.events ++ [.retryInfo (strTake 400 st.error_context)]
        evaluator := record_retry st.error_context st.evaluator } n0
      (by simpa using hsucc) (by simpa using hret)
      (by simpa [record_retry] using hlog)
    simp only at b1 b2 b3 b4 b5 b6 b7 b8 b9 b10
    refine ⟨b1, ?_, b3, b4, b5, b6, b7, b8, b9, b10⟩
    rw [b2, if_pos hr0]
    simp [rcS, record_retry]
  · have hrun : attemptStep loads env st =
        attemptBody loads env { st with attempts := st.attempts + 1 } := by
      simp [attemptStep, hr0]
    rw [hrun]
    obtain ⟨b1, b2, b3, b4, b5, b6, b7, b8, b9, b10⟩ := attemptBody_spec loads env
      { st with attempts := st.attempts + 1 } n0
      (by simpa using hsucc) (by simpa using hret) (by simpa using hlog)
    simp only at b1 b2 b3 b4 b5 b6 b7 b8 b9 b10
    refine ⟨b1, ?_, b3, b4, b5, b6, b7, b8, b9, b10⟩
    rw [b2, if_neg hr0]
    simp [rcS]

lemma genLoopAux_exit (loads : String → Option PJson) (env : Nat → AttemptEnv)
    (fuel : Nat) (st : RunState)
    (h : ¬ (st.retries < max_retries ∧ st.success = false)) :
    genLoopAux loads env fuel st = .finished st := by
  cases fuel <;> simp [genLoopAux, h]

lemma genLoopAux_spec (loads : String → Option PJson) (env : Nat → AttemptEnv)
    (n0 : Nat) : ∀ (fuel : Nat) (st : RunState),
    st.success = false →
    rcS st = st.attempts - 1 →
    st.attempts = st.retries →
    st.retries ≤ max_retries →
    (st.retries < max_retries → st.evaluator.log.length = n0) →
    (¬ st.retries < max_retries → st.evaluator.log.length = n0 + 1) →
    max_retries + 1 ≤ st.retries + fuel →
    1 ≤ (outState (genLoopAux loads env fuel st)).attempts ∧
    (outState (genLoopAux loads env fuel st)).attempts ≤ max_retries ∧
    (outState (genLoopAux loads env fuel st)).attempts =
      1 + rcS (outState (genLoopAux loads env fuel st)) ∧
    (isFinished (genLoopAux loads env fuel st) = true →
      (outState (genLoopAux loads env fuel st)).evaluator.log.length = n0 + 1) ∧
    ((outState (genLoopAux loads env fuel st)).evaluator.log.length = n0 ∨
      (outState (genLoopAux loads env fuel st)).evaluator.log.length = n0 + 1) := by
  intro fuel
  induction fuel with
  | zero =>
    intro st hsucc hrc hatt hr3 hpre hpost hfuel
    omega
  | succ fuel ih =>
    intro st hsucc hrc hatt hr3 hpre hpost hfuel
    by_cases hg : st.retries < max_retries
    · have hguard : st.retries < max_retries ∧ st.success = false := ⟨hg, hsucc⟩
      have hlg := hpre hg
      obtain ⟨s1, s2, s3, s4, s5, s6, s7, s8, s9, s10⟩ :=
        attemptStep_spec loads (env st.retries) st n0 hsucc hg hlg
      cases hstep : attemptStep loads (env st.retries) st with
      | fatal st2 e =>
        have hred : genLoopAux loads env (fuel + 1) st = .crashed st2 e := by
          simp [genLoopAux, hguard, hstep]
        rw [hred]
        rw [hstep] at s1 s2 s3 s4 s5 s9
        simp only [stepState] at s1 s2 s3 s4 s5 s9
        simp only [outState]
        refine ⟨by omega, by omega, ?_, ?_, s9⟩
        · by_cases hriff : 0 < st.retries
          · rw [if_pos hriff] at s2
            omega
          · rw [if_neg hriff] at s2
            omega
        · intro hfin
          simp [isFinished] at hfin
      | next st2 =>
        have hred : genLoopAux loads env (fuel + 1) st =
            genLoopAux loads env fuel st2 := by
          simp [genLoopAux, hguard, hstep]
        rw [hred]
        rw [hstep] at s1 s2 s3 s4 s5 s6 s7 s8
        simp only [stepState, isNextStep] at s1 s2 s3 s4 s5 s6 s7 s8
        have hrc2 : rcS st2 = st2.attempts - 1 := by
          by_cases hriff : 0 < st.retries
          · rw [if_pos hriff] at s2
            omega
          · rw [if_neg hriff] at s2
            omega
        by_cases hs2 : st2.success = true
        · rw [genLoopAux_exit loads env fuel st2 (by simp [hs2])]
          simp only [outState]
          have hl2 := s6 hs2
          refine ⟨by omega, by omega, by omega, fun _ => hl2, Or.inr hl2⟩
        · have hs2f : st2.success = false := by
            cases hsv : st2.success
            · rfl
            · exact absurd hsv hs2
          have hr2eq : st2.retries = st.retries + 1 := s5 hs2f
          refine ih st2 hs2f hrc2 (by omega) (by omega) ?_ ?_ (by omega)
          · intro hlt
            exact (s7 hs2f hlt).1
          · intro hge
            exact s8 trivial (by omega)
    · rw [genLoopAux_exit loads env (fuel + 1) st (fun hc => hg hc.1)]
      have hl := hpost hg
      refine ⟨?_, ?_, ?_, ?_, Or.inr hl⟩
      · show 1 ≤ st.attempts
        simp only [max_retries] at hg hr3
        omega
      · show st.attempts ≤ max_retries
        omega
      · show st.attempts = 1 + rcS st
        simp only [max_retries] at hg hr3
        omega
      · intro _
        exact hl

lemma genLoop_spec (loads : String → Option PJson) (env : Nat → AttemptEnv)
    (chat_model code_model prompt : String) (t : Nat) (ev : Evaluator) :
    1 ≤ (outState (genLoop loads env chat_model code_model prompt t ev)).attempts ∧
    (outState (genLoop loads env chat_model code_model prompt t ev)).attempts ≤
      max_retries ∧
    (outState (genLoop loads env chat_model code_model prompt t ev)).attempts =
      1 + rcS (outState (genLoop loads env chat_model code_model prompt t ev)) ∧
    (isFinished (genLoop loads env chat_model code_model prompt t ev) = true →
      (outState (genLoop loads env chat_model code_model prompt t
          ev)).evaluator.log.length = ev.log.length + 1) ∧
    ((outState (genLoop loads env chat_model code_model prompt t
        ev)).evaluator.log.length = ev.log.length ∨
      (outState (genLoop loads env chat_model code_model prompt t
          ev)).evaluator.log.length = ev.log.length + 1) := by
  have hinit : (initRunState chat_model code_model prompt t ev).retries <
      max_retries := by
    simp [initRunState, max_retries]
  exact genLoopAux_spec loads env ev.log.length (max_retries + 1)
    (initRunState chat_model code_model prompt t ev) rfl rfl rfl
    (Nat.le_of_lt hinit) (fun _ => rfl) (fun h => absurd hinit h)
    (by simp [initRunState])

/-- C1: `max_retries` is the constant 3, every controller run makes at least
one and at most `max_retries` generation attempts (executions of the `try`
body, each issuing one agent query), and the number of attempts made equals
`1 +` the number of retries recorded via `record_retry` for that run. -/
theorem c1_bounded_attempts (loads : String → Option PJson)
    (env : Nat → AttemptEnv) (chat_model code_model prompt : String) (t : Nat)
    (ev : Evaluator) :
    max_retries = 3 ∧
    1 ≤ (outState (genLoop loads env chat_model code_model prompt t ev)).attempts ∧
    (outState (genLoop loads env chat_model code_model prompt t ev)).attempts ≤
      max_retries ∧
    (outState (genLoop loads env chat_model code_model prompt t ev)).attempts =
      1 + rcS (outState (genLoop loads env chat_model code_model prompt t ev)) := by
  obtain ⟨h1, h2, h3, -, -⟩ :=
    genLoop_spec loads env chat_model code_model prompt t ev
  exact ⟨rfl, h1, h2, h3⟩

/-- C3 as stated is false on the code: a run whose agent output parses to a
dict whose `"code"` value is present but not a string (here `null`) reaches
the terminal-failure branch yet appends nothing to the evaluation log.  On
the first attempt `record_success` pops `start_time` and then raises
`TypeError` at `len(None)` before `_save_evaluation`; every later
finalization raises `KeyError` at the missing `start_time`, and the run
crashes out of `record_failure` with the log unchanged — it grew by zero,
not by exactly one. -/
theorem c3_counterexample :
    (outState (genLoop
        (fun _ => some { description := some "d", code := some (PyVal.other false),
                         filename := some "f.py" })
        (fun _ => { agent := .ok "x", write_ok := true, now := 5 })
        "mistral" "codellama" "p" 0 evaluator0)).evaluator.log.length = 0 ∧
    outErr (genLoop
        (fun _ => some { description := some "d", code := some (PyVal.other false),
                         filename := some "f.py" })
        (fun _ => { agent := .ok "x", write_ok := true, now := 5 })
        "mistral" "codellama" "p" 0 evaluator0) =
      some (.keyError "start_time") ∧
    (UiEvent.failedAfterMax "KeyError: start_time") ∈
      (outState (genLoop
        (fun _ => some { description := some "d", code := some (PyVal.other false),
                         filename := some "f.py" })
        (fun _ => { agent := .ok "x", write_ok := true, now := 5 })
        "mistral" "codellama" "p" 0 evaluator0)).events ∧
    (outState (genLoop
        (fun _ => some { description := some "d", code := some (PyVal.other false),
                         filename := some "f.py" })
        (fun _ => { agent := .ok "x", write_ok := true, now := 5 })
        "mistral" "codellama" "p" 0 evaluator0)).attempts = 3 := by
  decide

/-- C3 amended: every controller run grows the evaluation log by at most one
record, and by exactly one whenever it exits the loop at its guard (success,
degraded success, or a terminal failure whose `record_failure` completes);
the only zero-growth runs are those whose first `record_success` raises
between `pop("start_time")` and the save, which then crash.  At the
evaluator level, `record_failure` and `record_success` on a dict with a
string `"code"` value always append exactly one record as the first
finalization of a started run, any first finalization appends at most one,
and a second `record_success`/`record_failure` raises `KeyError` at
`pop("start_time")` before reaching the log, so no second record is appended
and the log is never corrupted. -/
theorem c3_amended_log_growth (loads : String → Option PJson)
    (env : Nat → AttemptEnv) (ev : Evaluator)
    (chat_model code_model prompt : String) (t now : Nat)
    (codeStr err : String) (op op2 : FinOp) (ops : List FinOp) :
    ((outState (genLoop loads env chat_model code_model prompt t
        ev)).evaluator.log.length = ev.log.length ∨
      (outState (genLoop loads env chat_model code_model prompt t
          ev)).evaluator.log.length = ev.log.length + 1) ∧
    (isFinished (genLoop loads env chat_model code_model prompt t ev) = true →
      (outState (genLoop loads env chat_model code_model prompt t
          ev)).evaluator.log.length = ev.log.length + 1) ∧
    ((applyFin (.fail now err)
        (start_evaluation chat_model code_model prompt t ev)).2.log.length =
      (start_evaluation chat_model code_model prompt t ev).log.length + 1) ∧
    ((applyFin (.succ now (PyVal.str codeStr))
        (start_evaluation chat_model code_model prompt t ev)).2.log.length =
      (start_evaluation chat_model code_model prompt t ev).log.length + 1) ∧
    ((applyFin op (start_evaluation chat_model code_model prompt t ev)).2.log.length =
        (start_evaluation chat_model code_model prompt t ev).log.length ∨
      (applyFin op (start_evaluation chat_model code_model prompt t ev)).2.log.length =
        (start_evaluation chat_model code_model prompt t ev).log.length + 1) ∧
    ((applyFin op2
        (applyFin op (start_evaluation chat_model code_model prompt t ev)).2).1 =
      .error (.keyError "start_time")) ∧
    ((applyFin op2
        (applyFin op (start_evaluation chat_model code_model prompt t ev)).2).2.log =
      (applyFin op (start_evaluation chat_model code_model prompt t ev)).2.log) ∧
    ((runFins ops
        (applyFin op (start_evaluation chat_model code_model prompt t ev)).2).log =
      (applyFin op (start_evaluation chat_model code_model prompt t ev)).2.log) := by
  obtain ⟨-, -, -, hfin, hdisj⟩ :=
    genLoop_spec loads env chat_model code_model prompt t ev
  have hnone : (applyFin op
      (start_evaluation chat_model code_model prompt t ev)).2.cur.start_time =
      none := by
    cases op with
    | succ n2 c2 => cases c2 <;> simp [applyFin, record_success, start_evaluation]
    | fail n2 e2 => simp [applyFin, record_failure, start_evaluation]
  have hlen : (applyFin op
      (start_evaluation chat_model code_model prompt t ev)).2.log.length =
        (start_evaluation chat_model code_model prompt t ev).log.length ∨
      (applyFin op
        (start_evaluation chat_model code_model prompt t ev)).2.log.length =
        (start_evaluation chat_model code_model prompt t ev).log.length + 1 := by
    cases op with
    | succ n2 c2 =>
      cases c2 with
      | str c =>
        exact Or.inr (by simp [applyFin, record_success, start_evaluation])
      | other b =>
        exact Or.inl (by simp [applyFin, record_success, start_evaluation])
    | fail n2 e2 =>
      exact Or.inr (by simp [applyFin, record_failure, start_evaluation])
  obtain ⟨he, hl, -⟩ := applyFin_start_none op2 _ hnone
  refine ⟨hdisj, hfin, ?_, ?_, hlen, he, hl, runFins_start_none ops _ hnone⟩
  · simp [applyFin, record_failure, start_evaluation]
  · simp [applyFin, record_success, start_evaluation]
